import Mathlib

/-!
Verification of the widget-hassistant reconciliation engine.

Shallow embedding of the Python sources (`hass_widget/tray.py`,
`hass_widget/agent_metrics.py`, `hass_widget/icons.py`) into Lean.
External collaborators (the Home Assistant HTTP API, the filesystem,
the Qt presentation layer) are modelled as oracles passed in as
parameters; every remote call outcome is explicit data.
-/

namespace HassWidget

/-! ### Python string primitives

`pyStrip` embeds Python's `str.strip()` (remove leading and trailing
whitespace), `lowerStr` embeds `str.lower()` at the character level. -/

def stripLeftChars (l : List Char) : List Char :=
  l.dropWhile Char.isWhitespace

def pyStripList (l : List Char) : List Char :=
  ((stripLeftChars l).reverse |> stripLeftChars).reverse

def pyStrip (s : String) : String :=
  String.mk (pyStripList s.data)

def lowerStr (s : String) : String :=
  String.mk (s.data.map Char.toLower)

/-! ### `agent_metrics.slugify_agent_name`

Embedding of

```
name = name.strip().lower()
if not name:
    return ""
slug = re.sub(r"[^a-z0-9]+", "_", name)
slug = slug.strip("_")
return slug or "agent"
```

`collapseNonSlug` embeds `re.sub(r"[^a-z0-9]+", "_", ...)`: every maximal
run of characters outside `[a-z0-9]` is replaced by a single underscore.
The `inRun` flag records whether the previous character was part of such
a run. -/

def isSlugChar (c : Char) : Bool :=
  ('a' ≤ c && c ≤ 'z') || ('0' ≤ c && c ≤ '9')

def collapseNonSlug : List Char → Bool → List Char
  | [], _ => []
  | c :: cs, inRun =>
    if isSlugChar c then c :: collapseNonSlug cs false
    else if inRun then collapseNonSlug cs true
    else '_' :: collapseNonSlug cs true

def stripUnderscores (l : List Char) : List Char :=
  ((l.dropWhile (· == '_')).reverse.dropWhile (· == '_')).reverse

def slugify_agent_name (name : String) : String :=
  let n := lowerStr (pyStrip name)
  if n.data = [] then ""
  else
    let s := stripUnderscores (collapseNonSlug n.data false)
    if s = [] then "agent" else String.mk s

/-- The slug derivation as the specification words it: the label is
lower-cased and trimmed, runs of non-alphanumeric characters are collapsed
to single underscores, leading/trailing underscores are removed, and an
empty result falls back to the fixed default token `"agent"`. -/
def slugifySpec (name : String) : String :=
  let s := stripUnderscores (collapseNonSlug (lowerStr (pyStrip name)).data false)
  if s = [] then "agent" else String.mk s

/-! ### Notification polling (`tray.TrayIcon._check_notifications`,
`tray.TrayIcon._initialize_notifications`)

A notification is modelled by its three fields read by the code; a missing
`notification_id` key is `none` (Python `notification.get("notification_id", "")`
then yields `""`).  The Known-Notifications Set is a `Finset String`. -/

structure Notification where
  notification_id : Option String
  title : Option String
  message : Option String
deriving DecidableEq

/-- `str(notification.get("notification_id", "")).strip()`. -/
def notifId (n : Notification) : String :=
  pyStrip (n.notification_id.getD "")

structure CheckState where
  current : Finset String
  known : Finset String
  surfaced : List String
deriving DecidableEq

/-- One iteration of the `for notification in notifications` loop of
`_check_notifications`: blank ids are skipped; the id is added to
`current_ids`; ids not yet known are surfaced (recorded by id) and added to
the known set. -/
def checkStep (st : CheckState) (n : Notification) : CheckState :=
  let nid := notifId n
  if nid = "" then st
  else if nid ∈ st.known then { st with current := insert nid st.current }
  else { current := insert nid st.current, known := insert nid st.known,
         surfaced := st.surfaced ++ [nid] }

/-- The successful path of `_check_notifications`: run the loop, then
`intersection_update` the known set with `current_ids` when the latter is
non-empty, else `clear()` it.  Returns the surfaced ids and the new
Known-Notifications Set. -/
def checkNotifications (known : Finset String) (ns : List Notification) :
    List String × Finset String :=
  let st := ns.foldl checkStep ⟨∅, known, []⟩
  (st.surfaced, if st.current = ∅ then ∅ else st.known ∩ st.current)

/-- One iteration of the seeding loop of `_initialize_notifications`. -/
def initStep (acc : Finset String) (n : Notification) : Finset String :=
  let nid := notifId n
  if nid = "" then acc else insert nid acc

/-- The successful path of `_initialize_notifications`: the known set is
cleared and re-seeded with every non-blank (stripped) notification id,
surfacing nothing. -/
def initializeNotifications (ns : List Notification) : Finset String :=
  ns.foldl initStep ∅

/-- The identifier set carried by a poll result: all non-blank stripped ids. -/
def idSet (ns : List Notification) : Finset String :=
  ((ns.map notifId).toFinset).erase ""

/-! ### Icon resolution and the icon cache
(`tray.TrayIcon._cached_icon`, `_entity_icon`, `_entity_icon_from_api`,
`_entity_icon_from_resources`, `icons.py`)

A `QtGui.QIcon` is modelled by `IconRes`: either the null icon (`QIcon()`,
`isNull()` true) or a real icon identified by a number.  Remote fetches and
local resource loads are oracles: `LoaderOutcome.err` models a raised
`HomeAssistantError`, `LoaderOutcome.ok none` models `icon_from_bytes`
returning `None` (bytes that do not decode), `LoaderOutcome.ok (some i)`
a decoded icon. -/

inductive IconRes where
  | null : IconRes
  | real : Nat → IconRes
deriving DecidableEq

def IconRes.isNull : IconRes → Bool
  | .null => true
  | .real _ => false

inductive LoaderOutcome where
  | err : LoaderOutcome
  | ok : Option IconRes → LoaderOutcome
deriving DecidableEq

/-- The icon `_cached_icon`'s loader would produce when actually invoked. -/
def decodeOutcome : LoaderOutcome → Option IconRes
  | .err => none
  | .ok none => none
  | .ok (some i) => if i.isNull then none else some i

/-- `self._icon_cache`, keyed by the string cache keys the code builds. -/
def IconCache : Type := String → Option IconRes

structure CacheResult where
  result : Option IconRes
  cache : IconCache
  fetched : Bool

/-- `_cached_icon`: a cache hit (positive or negative) short-circuits the
loader; on a miss the loader runs (`fetched = true`), a raised error or a
`None` result is replaced by the null icon, the outcome is stored, and a
null stored icon is reported as `None`. -/
def cachedIcon (cache : IconCache) (key : String) (outcome : LoaderOutcome) :
    CacheResult :=
  match cache key with
  | some i => ⟨if i.isNull then none else some i, cache, false⟩
  | none =>
    let i := match outcome with
      | .err => IconRes.null
      | .ok none => IconRes.null
      | .ok (some ic) => ic
    ⟨if i.isNull then none else some i,
      fun k => if k = key then some i else cache k, true⟩

/-- `cache_key = f"api:{base_url}:{name}"`. -/
def apiCacheKey (baseUrl name : String) : String :=
  "api:" ++ baseUrl ++ ":" ++ name

/-- A sequence of `_cached_icon` invocations (arbitrary keys, with the
loader outcome each invocation would produce); returns the final cache and
the trace of `(key, fetched?)` events. -/
def runCachedCalls (cache : IconCache) :
    List (String × LoaderOutcome) → IconCache × List (String × Bool)
  | [] => (cache, [])
  | (k, o) :: rest =>
    let r := cachedIcon cache k o
    let t := runCachedCalls r.cache rest
    (t.1, (k, r.fetched) :: t.2)

/-- Number of events in a trace that actually fetched from the gateway for
the given cache key. -/
def fetchCount (key : String) (trace : List (String × Bool)) : Nat :=
  trace.countP (fun e => e.1 == key && e.2)

/-! #### Entity icon resolution -/

/-- The attributes of an entity state that icon resolution reads
(`attributes.get("friendly_name")`, `.get("icon")`, `.get("entity_picture")`,
each possibly absent). -/
structure EntityAttrs where
  friendly_name : Option String
  icon : Option String
  entity_picture : Option String
deriving DecidableEq

/-- `domain, _, _ = entity_id.partition(".")`: the substring before the
first dot (the whole string when there is no dot). -/
def domainOf (s : String) : String :=
  String.mk (s.data.takeWhile (fun c => c != '.'))

/-- `icons.DOMAIN_ICON_FILES`. -/
def DOMAIN_ICON_FILES : List (String × String) :=
  [("automation", "entity-script.svg"),
   ("binary_sensor", "entity-sensor.svg"),
   ("button", "entity-button.svg"),
   ("climate", "entity-climate.svg"),
   ("cover", "entity-cover.svg"),
   ("fan", "entity-fan.svg"),
   ("input_boolean", "entity-switch.svg"),
   ("light", "entity-light.svg"),
   ("lock", "entity-lock.svg"),
   ("media_player", "entity-media-player.svg"),
   ("scene", "entity-scene.svg"),
   ("script", "entity-script.svg"),
   ("sensor", "entity-sensor.svg"),
   ("switch", "entity-switch.svg")]

def DEFAULT_ENTITY_ICON : String := "entity-generic.svg"

/-- `icons.domain_icon_name`: the static domain → resource table with the
generic default for unknown domains. -/
def domain_icon_name (entityId : String) : String :=
  (DOMAIN_ICON_FILES.lookup (domainOf entityId)).getD DEFAULT_ENTITY_ICON

/-- The external fetch/decode/filesystem oracles entity icon resolution
consults: outcome of decoding a fetched entity picture, outcome of decoding
a fetched icon, and the icon loaded from a local resource file. -/
structure FetchOracles where
  pictureOutcome : String → LoaderOutcome
  iconOutcome : String → LoaderOutcome
  resourceIcon : String → IconRes

/-- `_entity_icon_from_api`: no cached state means no remote resolution;
otherwise a non-blank `entity_picture` is fetched (via the cache), else a
non-blank `icon` name, else nothing.  Returns the resolved icon and the
updated cache. -/
def entityIconFromApi (baseUrl : String) (states : String → Option EntityAttrs)
    (o : FetchOracles) (cache : IconCache) (entityId : String) :
    Option IconRes × IconCache :=
  match states entityId with
  | none => (none, cache)
  | some attrs =>
    let pic := pyStrip (attrs.entity_picture.getD "")
    let icn := pyStrip (attrs.icon.getD "")
    if pic ≠ "" then
      let r := cachedIcon cache (apiCacheKey baseUrl pic) (o.pictureOutcome pic)
      (r.result, r.cache)
    else if icn ≠ "" then
      let r := cachedIcon cache (apiCacheKey baseUrl icn) (o.iconOutcome icn)
      (r.result, r.cache)
    else (none, cache)

/-- `cache_key = f"resource:{domain}" if domain else f"resource:{entity_id}"`. -/
def resourceKey (entityId : String) : String :=
  if domainOf entityId ≠ "" then "resource:" ++ domainOf entityId
  else "resource:" ++ entityId

/-- `_entity_icon_from_resources`: domain-keyed local fallback with its own
cache scope (`resource:`), negative results cached as the null icon. -/
def entityIconFromResources (o : FetchOracles) (cache : IconCache)
    (entityId : String) : Option IconRes × IconCache :=
  match cache (resourceKey entityId) with
  | some i => (if i.isNull then none else some i, cache)
  | none =>
    let i := o.resourceIcon (domain_icon_name entityId)
    (if i.isNull then none else some i,
      fun k => if k = resourceKey entityId then some i else cache k)

/-- `_entity_icon`: try the remote API resolution when a client exists, fall
back to the local resource mapping when it yields nothing. -/
def entityIcon (client : Bool) (baseUrl : String)
    (states : String → Option EntityAttrs) (o : FetchOracles)
    (cache : IconCache) (entityId : String) : Option IconRes × IconCache :=
  let r := if client then entityIconFromApi baseUrl states o cache entityId
           else (none, cache)
  match r.1 with
  | some i => (some i, r.2)
  | none => entityIconFromResources o r.2 entityId

/-- The local-fallback step as the specification words it: map the entity's
domain through the static table (unknown domains to the generic default) and
load that local resource. -/
def specFallbackIcon (o : FetchOracles) (entityId : String) : Option IconRes :=
  let i := o.resourceIcon
    ((DOMAIN_ICON_FILES.lookup (domainOf entityId)).getD DEFAULT_ENTITY_ICON)
  if i.isNull then none else some i

/-- Icon resolution as the specification words it: (1) fetch and decode the
remote picture when the entity has one; (2) else fetch and decode the
symbolic icon name when the entity has one; (3) else, or when (1)/(2)
fails or decodes to nothing, fall back to the static domain mapping. -/
def specEntityIcon (states : String → Option EntityAttrs) (o : FetchOracles)
    (entityId : String) : Option IconRes :=
  match states entityId with
  | none => specFallbackIcon o entityId
  | some attrs =>
    let pic := pyStrip (attrs.entity_picture.getD "")
    let icn := pyStrip (attrs.icon.getD "")
    if pic ≠ "" then
      match decodeOutcome (o.pictureOutcome pic) with
      | some i => some i
      | none => specFallbackIcon o entityId
    else if icn ≠ "" then
      match decodeOutcome (o.iconOutcome icn) with
      | some i => some i
      | none => specFallbackIcon o entityId
    else specFallbackIcon o entityId

/-! ### Agent metric publishing (`tray.TrayIcon._publish_agent_metrics`,
`agent_metrics.py`)

Attribute values are modelled as strings; `sorted(attributes.items())` is
an insertion sort by the `(key, value)` pair in lexicographic order (dict
keys are distinct, so the value component never actually decides). -/

structure MetricOption where
  key : String
  label : String
deriving DecidableEq

/-- `agent_metrics.AGENT_METRIC_OPTIONS` (key and label; the description is
never read by the publish job). -/
def AGENT_METRIC_OPTIONS : List MetricOption :=
  [⟨"disk_free_gb", "Available disk space (GB)"⟩,
   ⟨"memory_used_percent", "Memory usage (%)"⟩,
   ⟨"gpu_usage_percent", "GPU load (%)"⟩,
   ⟨"uptime_seconds", "System uptime (seconds)"⟩]

/-- `agent_metrics.get_metric_option`. -/
def get_metric_option (key : String) : Option MetricOption :=
  AGENT_METRIC_OPTIONS.find? (fun o => o.key == key)

structure MetricValue where
  state : String
  attributes : List (String × String)
deriving DecidableEq

/-- Lexicographic comparison of strings by code point. -/
def strListLt : List Char → List Char → Bool
  | [], [] => false
  | [], _ :: _ => true
  | _ :: _, [] => false
  | a :: as, b :: bs =>
    if a.toNat < b.toNat then true
    else if b.toNat < a.toNat then false
    else strListLt as bs

def strLtB (a b : String) : Bool := strListLt a.data b.data

/-- Python tuple comparison on `(key, value)` string pairs. -/
def pairLeB (x y : String × String) : Bool :=
  strLtB x.1 y.1 || (x.1 == y.1 && (strLtB x.2 y.2 || x.2 == y.2))

def insertPair (x : String × String) :
    List (String × String) → List (String × String)
  | [] => [x]
  | y :: ys => if pairLeB x y then x :: y :: ys else y :: insertPair x ys

/-- `sorted(attributes.items())`. -/
def sortPairs (l : List (String × String)) : List (String × String) :=
  l.foldr insertPair []

/-- `dict.setdefault(k, v)` on an association list: add `(k, v)` at the end
only when the key is absent. -/
def setdefaultAttr (l : List (String × String)) (k v : String) :
    List (String × String) :=
  if (l.lookup k).isSome then l else l ++ [(k, v)]

/-- The attribute dict `_publish_agent_metrics` builds for one metric:
a copy of the collected attributes, with `friendly_name` defaulted from the
metric option label and `source` defaulted to the fixed marker. -/
def buildAttributes (agentName key : String) (m : MetricValue) :
    List (String × String) :=
  let attrs := m.attributes
  let attrs := match get_metric_option key with
    | some o => setdefaultAttr attrs "friendly_name" (agentName ++ " " ++ o.label)
    | none => attrs
  setdefaultAttr attrs "source" "Home Assistant Widget"

/-- A Last-Published-Value Map entry: `(metric.state, tuple(sorted(attributes.items())))`. -/
abbrev Sig := String × List (String × String)

/-- `payload_signature` for one metric. -/
def payloadSignature (agentName key : String) (m : MetricValue) : Sig :=
  (m.state, sortPairs (buildAttributes agentName key m))

/-- `entity_id = f"sensor.{slug}_{key}"`. -/
def entityIdFor (slug key : String) : String :=
  "sensor." ++ slug ++ "_" ++ key

/-- The methods `HomeAssistantClient` (ha_client.py) actually defines.
`set_state` — which `_publish_agent_metrics` calls at its push site — is
not among them, so that attribute access raises `AttributeError`, an
exception the surrounding `except HomeAssistantError` clause does not
catch. -/
def haClientMethods : List String :=
  ["validate", "list_entity_states", "list_entities", "toggle_entity",
   "call_service", "list_notifications", "fetch_icon",
   "fetch_entity_picture"]

/-- The configuration fields the reconciliation engine reads. -/
structure WidgetConfigM where
  base_url : String
  api_token : String
  entities : List String
  receive_admin_notifications : Bool
  use_agent : Bool
  agent_name : String
  panel_refresh_minutes : Option Int
deriving DecidableEq

/-- The `for key, metric in metrics.items()` loop as the source actually
behaves: a metric whose stored signature matches the freshly computed one is
skipped (`continue`); for any other metric the attempted
`client.set_state(...)` raises `AttributeError` (the method does not exist
on `HomeAssistantClient`), which the `except HomeAssistantError` clause
does not catch, so the loop — and the whole run — terminates exceptionally
right there.  Returns the destination at which the uncaught error was
raised, or `none` when every metric was skipped and the run completed.  No
push is ever issued and the Last-Published-Value Map is never written. -/
def publishLoopActual (agentName slug : String) (last : String → Option Sig) :
    List (String × MetricValue) → Option String
  | [] => none
  | km :: rest =>
    if last (entityIdFor slug km.1) =
        some (payloadSignature agentName km.1 km.2) then
      publishLoopActual agentName slug last rest
    else some (entityIdFor slug km.1)

/-- Outcome of one `_publish_agent_metrics` run: the destination at which an
uncaught `AttributeError` escaped the run (`none` when the run returned
normally), and the Last-Published-Value Map after the run. -/
structure ActualRun where
  uncaughtError : Option String
  last : String → Option Sig

/-- `_publish_agent_metrics` as the source actually behaves: the run
returns normally (touching nothing) when the agent is disabled, the device
label strips to empty, no metric was collected, the slug is empty, or
`_create_client` raises (that `HomeAssistantError` is caught); once the
loop is reached, the run either completes having pushed nothing (every
signature matched the stored one) or dies with an uncaught
`AttributeError` at the first non-matching metric.  In every case
`_agent_last_payloads` is left untouched, because the only write to it
follows the `client.set_state` call that cannot succeed. -/
def publishAgentMetricsActual (cfg : WidgetConfigM)
    (metrics : List (String × MetricValue)) (clientOk : Bool)
    (last : String → Option Sig) : ActualRun :=
  if ¬ cfg.use_agent then ⟨none, last⟩
  else
    let agentName := pyStrip cfg.agent_name
    if agentName = "" then ⟨none, last⟩
    else if metrics = [] then ⟨none, last⟩
    else
      let slug := slugify_agent_name agentName
      if slug = "" then ⟨none, last⟩
      else if ¬ clientOk then ⟨none, last⟩
      else ⟨publishLoopActual agentName slug last metrics, last⟩

/-- The destination identifier `_publish_agent_metrics` derives for a metric
key under the given configuration. -/
def destinationId (cfg : WidgetConfigM) (key : String) : String :=
  entityIdFor (slugify_agent_name (pyStrip cfg.agent_name)) key

/-- The signature `_publish_agent_metrics` computes for a metric under the
given configuration. -/
def metricSignature (cfg : WidgetConfigM) (key : String) (m : MetricValue) :
    Sig :=
  payloadSignature (pyStrip cfg.agent_name) key m

/-! ### Reconfiguration (`tray.TrayIcon._on_configuration_changed`) -/

inductive JobRun where
  | entityRefresh : JobRun
  | notificationCheck : JobRun
  | agentPublish : JobRun
deriving DecidableEq

structure SchedulerState where
  iconCache : IconCache
  agentLastPayloads : String → Option Sig
  knownNotifications : Finset String
  notificationTimerActive : Bool
  agentTimerActive : Bool

/-- `_on_configuration_changed`: clear the icon cache and the
Last-Published-Value Map, rebuild the view immediately, re-apply the
notification preference (restart the timer, run the seeding pass, queue an
immediate poll) and the agent settings (restart the timer, queue an
immediate publish).  `notifFetch` is the outcome of the seeding pass's
`list_notifications` call (`none`: unconfigured or failed).  The returned
list holds the jobs given an immediate out-of-band run, in execution
order. -/
def onConfigurationChanged (cfg : WidgetConfigM)
    (notifFetch : Option (List Notification)) :
    SchedulerState × List JobRun :=
  ({ iconCache := fun _ => none,
     agentLastPayloads := fun _ => none,
     knownNotifications :=
       if cfg.receive_admin_notifications then
         match notifFetch with
         | some ns => initializeNotifications ns
         | none => ∅
       else ∅,
     notificationTimerActive := cfg.receive_admin_notifications,
     agentTimerActive := cfg.use_agent && (pyStrip cfg.agent_name != "") },
   [JobRun.entityRefresh]
     ++ (if cfg.receive_admin_notifications then [JobRun.notificationCheck] else [])
     ++ (if cfg.use_agent && (pyStrip cfg.agent_name != "") then
          [JobRun.agentPublish] else []))

/-! ### Entity refresh (`tray.TrayIcon.update_entities`) -/

/-- One raw element of the `/api/states` response as `update_entities`
reads it. -/
structure RawState where
  entity_id : Option String
  attributes : Option EntityAttrs
deriving DecidableEq

/-- One entry of the view published to the panel
(`entity_panel.PanelEntity`). -/
structure PanelEntity where
  entity_id : String
  friendly_name : String
  icon : Option IconRes
deriving DecidableEq

/-- Python dict insertion on an association list: an existing key keeps its
position and gets the new value, a new key is appended. -/
def dictInsert {α : Type} (l : List (String × α)) (k : String) (v : α) :
    List (String × α) :=
  if (l.lookup k).isSome then
    l.map (fun p => if p.1 = k then (k, v) else p)
  else l ++ [(k, v)]

/-- The first loop of `update_entities` (success path): build `entity_map`
(id → friendly name) and `state_map` (id → attributes), skipping states
without an `entity_id`. -/
def buildStateMaps (all : List RawState) :
    List (String × String) × List (String × EntityAttrs) :=
  all.foldl
    (fun acc st =>
      match st.entity_id with
      | none => acc
      | some eid =>
        if eid = "" then acc
        else
          let attrs := st.attributes.getD ⟨none, none, none⟩
          let fname := match attrs.friendly_name with
            | none => eid
            | some f => if f = "" then eid else f
          (dictInsert acc.1 eid fname, dictInsert acc.2 eid attrs))
    ([], [])

/-- The panel-building loop over `entity_map.items()`, threading the icon
cache through `_entity_icon`. -/
def buildPanel (client : Bool) (baseUrl : String)
    (states : String → Option EntityAttrs) (o : FetchOracles) :
    IconCache → List (String × String) → IconCache × List PanelEntity
  | cache, [] => (cache, [])
  | cache, (eid, fname) :: rest =>
    let r := entityIcon client baseUrl states o cache eid
    let t := buildPanel client baseUrl states o r.2 rest
    (t.1, ⟨eid, fname, r.1⟩ :: t.2)

/-- The `if not panel_entities and self._config.entities:` fallback loop:
one panel entry per configured entity id, label defaulting to the raw id. -/
def buildFallback (client : Bool) (baseUrl : String)
    (states : String → Option EntityAttrs) (o : FetchOracles)
    (entityMap : List (String × String)) :
    IconCache → List String → IconCache × List PanelEntity
  | cache, [] => (cache, [])
  | cache, e :: rest =>
    let fname := (entityMap.lookup e).getD e
    let r := entityIcon client baseUrl states o cache e
    let t := buildFallback client baseUrl states o entityMap r.2 rest
    (t.1, ⟨e, fname, r.1⟩ :: t.2)

/-- The menu-construction loop's icon side effects: entities already in
`icon_map` are reused, others go through `_entity_icon` (cache effect
only; the menu itself is presentation). -/
def menuIconPass (client : Bool) (baseUrl : String)
    (states : String → Option EntityAttrs) (o : FetchOracles)
    (processed : List String) :
    IconCache → List String → IconCache
  | cache, [] => cache
  | cache, e :: rest =>
    let cache' := if e ∈ processed then cache
      else (entityIcon client baseUrl states o cache e).2
    menuIconPass client baseUrl states o processed cache' rest

/-- Common tail of `update_entities` after the fetch stage: fallback
construction, menu icon side effects, and the final
`_entity_panel.update_entities(panel_entities)` publish. -/
def finishUpdate (client : Bool) (cfg : WidgetConfigM)
    (states : String → Option EntityAttrs) (o : FetchOracles)
    (entityMap : List (String × String)) (cache₁ : IconCache)
    (panel₁ : List PanelEntity) (stateMap : List (String × EntityAttrs)) :
    List (String × EntityAttrs) × IconCache × List PanelEntity :=
  let fb :=
    if panel₁ = [] ∧ cfg.entities ≠ [] then
      buildFallback client cfg.base_url states o entityMap cache₁ cfg.entities
    else (cache₁, [])
  let view := panel₁ ++ fb.2
  let processed :=
    if panel₁ = [] ∧ cfg.entities ≠ [] then cfg.entities
    else entityMap.map Prod.fst
  let cache₃ :=
    if cfg.entities ≠ [] then
      menuIconPass client cfg.base_url states o processed fb.1 cfg.entities
    else fb.1
  (stateMap, cache₃, view)

/-- `update_entities`: `fetch = none` models both an unconfigured client and
a `list_entity_states` failure (the code behaves identically: the entity
state map is emptied, the client is dropped, and the fallback view is built
from the configured entity ids).  Returns the new `_entity_states` map, the
new icon cache, and the view published to the panel. -/
def updateEntities (cfg : WidgetConfigM) (o : FetchOracles)
    (fetch : Option (List RawState)) (cache₀ : IconCache) :
    List (String × EntityAttrs) × IconCache × List PanelEntity :=
  let effective := if cfg.base_url ≠ "" ∧ cfg.api_token ≠ "" then fetch else none
  match effective with
  | some all =>
    let maps := buildStateMaps all
    let states := fun e => maps.2.lookup e
    let p := buildPanel true cfg.base_url states o cache₀ maps.1
    finishUpdate true cfg states o maps.1 p.1 p.2 maps.2
  | none =>
    finishUpdate false cfg (fun _ => none) o [] cache₀ [] []

/-! ### Panel refresh interval (`tray.TrayIcon._apply_panel_refresh_interval`) -/

/-- `minutes = max(1, int(self._config.panel_refresh_minutes or 5))`: an
unset (or zero, Python-falsy) configured value defaults to 5, and the
result is clamped from below to 1.  There is no upper clamp. -/
def applyPanelRefreshMinutes (v : Option Int) : Int :=
  max 1 (match v with
    | none => 5
    | some n => if n = 0 then 5 else n)

/-- `interval_ms = minutes * 60_000`, the interval the timer is restarted
with. -/
def panelRefreshIntervalMs (v : Option Int) : Int :=
  applyPanelRefreshMinutes v * 60000

/-! ### Concrete fixtures (used to exercise the theorems on real inputs) -/

def wOracles : FetchOracles :=
  ⟨fun _ => LoaderOutcome.err, fun _ => LoaderOutcome.err,
   fun _ => IconRes.real 1⟩

def wConfig : WidgetConfigM :=
  ⟨"u", "t", ["light.a"], true, true, "My PC", none⟩

def wMetrics : List (String × MetricValue) :=
  [("disk_free_gb", ⟨"5", []⟩)]

/-! ### Lemmas about the string primitives -/

theorem length_dropWhile_le' (p : Char → Bool) (l : List Char) :
    (l.dropWhile p).length ≤ l.length := by
  induction l with
  | nil => simp
  | cons a t ih =>
    rw [List.dropWhile_cons]
    by_cases hpa : p a = true
    · rw [if_pos hpa]
      exact Nat.le_trans ih (Nat.le_succ _)
    · rw [if_neg hpa]

theorem dropWhile_self_eq {p : Char → Bool} {l : List Char}
    (h : l.dropWhile p = l) : l = [] ∨ ∃ a t, l = a :: t ∧ p a = false := by
  cases l with
  | nil => exact Or.inl rfl
  | cons a t =>
    cases hpa : p a with
    | false => exact Or.inr ⟨a, t, rfl, hpa⟩
    | true =>
      exfalso
      rw [List.dropWhile_cons, hpa] at h
      simp only [if_true] at h
      have hlen : (t.dropWhile p).length ≤ t.length := length_dropWhile_le' p t
      rw [h] at hlen
      simp at hlen

theorem dropWhile_idem (p : Char → Bool) (l : List Char) :
    (l.dropWhile p).dropWhile p = l.dropWhile p := by
  induction l with
  | nil => rfl
  | cons a t ih =>
    by_cases hpa : p a = true
    · rw [List.dropWhile_cons, if_pos hpa]
      exact ih
    · rw [List.dropWhile_cons, if_neg hpa, List.dropWhile_cons,
        if_neg hpa]

theorem dropWhile_decomp (p : Char → Bool) (l : List Char) :
    ∃ u, l = u ++ l.dropWhile p := by
  induction l with
  | nil => exact ⟨[], rfl⟩
  | cons a t ih =>
    by_cases hpa : p a = true
    · obtain ⟨u, hu⟩ := ih
      refine ⟨a :: u, ?_⟩
      rw [List.dropWhile_cons, if_pos hpa]
      simpa using hu
    · exact ⟨[], by rw [List.dropWhile_cons, if_neg hpa]; simp⟩

theorem pyStripList_idem (l : List Char) :
    pyStripList (pyStripList l) = pyStripList l := by
  unfold pyStripList stripLeftChars
  set p := Char.isWhitespace
  set A := l.dropWhile p with hA
  set m := A.reverse.dropWhile p with hm
  -- the result is `m.reverse`; show both strips leave it unchanged
  have hAA : A.dropWhile p = A := by rw [hA]; exact dropWhile_idem p l
  have hmm : m.dropWhile p = m := by rw [hm]; exact dropWhile_idem p A.reverse
  have hstep1 : m.reverse.dropWhile p = m.reverse := by
    obtain ⟨u, hu⟩ := dropWhile_decomp p A.reverse
    rw [← hm] at hu
    have hArev : A = m.reverse ++ u.reverse := by
      have := congrArg List.reverse hu
      simpa using this
    cases hR : m.reverse with
    | nil => simp
    | cons c R' =>
      have hAc : A = c :: (R' ++ u.reverse) := by rw [hArev, hR]; simp
      have hpc : p c = false := by
        rcases dropWhile_self_eq hAA with hnil | ⟨a, t, hat, hpa⟩
        · rw [hnil] at hAc; cases hAc
        · rw [hat] at hAc
          injection hAc with h1 _
          rwa [h1] at hpa
      rw [List.dropWhile_cons, hpc]
      simp
  rw [hstep1, List.reverse_reverse]
  rw [hmm]

theorem string_eq_empty_iff (s : String) : s = "" ↔ s.data = [] := by
  constructor
  · intro h; rw [h]
  · intro h
    cases s with
    | mk d => cases h; rfl

theorem pyStrip_idem (s : String) : pyStrip (pyStrip s) = pyStrip s := by
  unfold pyStrip
  rw [show (String.mk (pyStripList s.data)).data = pyStripList s.data from rfl,
    pyStripList_idem]

theorem lowerStr_data_eq_nil_iff (s : String) :
    (lowerStr s).data = [] ↔ s.data = [] := by
  unfold lowerStr
  simp

theorem slugify_of_stripped_ne_empty {s : String} (h : pyStrip s ≠ "") :
    slugify_agent_name (pyStrip s) ≠ "" := by
  have hdata : (lowerStr (pyStrip (pyStrip s))).data ≠ [] := by
    intro hnil
    rw [lowerStr_data_eq_nil_iff, pyStrip_idem] at hnil
    exact h ((string_eq_empty_iff _).2 hnil)
  unfold slugify_agent_name
  rw [if_neg hdata]
  by_cases hs : stripUnderscores (collapseNonSlug
      (lowerStr (pyStrip (pyStrip s))).data false) = []
  · rw [if_pos hs]
    decide
  · rw [if_neg hs]
    intro hcon
    exact hs ((string_eq_empty_iff _).1 hcon)

/-! ### Lemmas about the notification poll -/

theorem mem_idSet_iff (x : String) (ns : List Notification) :
    x ∈ idSet ns ↔ x ≠ "" ∧ ∃ n ∈ ns, notifId n = x := by
  unfold idSet
  rw [Finset.mem_erase, List.mem_toFinset, List.mem_map]
  try tauto

theorem idSet_cons (n : Notification) (ns : List Notification) :
    idSet (n :: ns) =
      if notifId n = "" then idSet ns else insert (notifId n) (idSet ns) := by
  unfold idSet
  rw [List.map_cons, List.toFinset_cons]
  by_cases h : notifId n = ""
  · rw [if_pos h, h, Finset.erase_insert_eq_erase]
  · rw [if_neg h, Finset.erase_insert_of_ne h]

theorem foldl_checkStep (ns : List Notification) :
    ∀ st : CheckState,
      (ns.foldl checkStep st).current = st.current ∪ idSet ns ∧
      (ns.foldl checkStep st).known = st.known ∪ idSet ns ∧
      ∃ l, (ns.foldl checkStep st).surfaced = st.surfaced ++ l ∧
        l.Nodup ∧ l.toFinset = idSet ns \ st.known := by
  induction ns with
  | nil =>
    intro st
    refine ⟨?_, ?_, [], by simp, by simp, ?_⟩ <;> simp [idSet]
  | cons n ns ih =>
    intro st
    rw [List.foldl_cons]
    by_cases h0 : notifId n = ""
    · have hstep : checkStep st n = st := by
        unfold checkStep
        rw [if_pos h0]
      rw [hstep, idSet_cons, if_pos h0]
      exact ih st
    · by_cases hk : notifId n ∈ st.known
      · have hstep : checkStep st n = { st with current := insert (notifId n) st.current } := by
          unfold checkStep
          rw [if_neg h0, if_pos hk]
        rw [hstep]
        obtain ⟨hc, hkn, l, hs, hnd, hts⟩ := ih { st with current := insert (notifId n) st.current }
        rw [idSet_cons, if_neg h0]
        refine ⟨?_, ?_, l, hs, hnd, ?_⟩
        · rw [hc]; ext x; simp; try tauto
        · rw [hkn]; ext x
          simp only [Finset.mem_union, Finset.mem_insert]
          constructor
          · tauto
          · rintro (hx | hx | hx)
            · tauto
            · exact Or.inl (hx ▸ hk)
            · tauto
        · rw [hts]; ext x
          simp only [Finset.mem_sdiff, Finset.mem_insert]
          constructor
          · tauto
          · rintro ⟨hx1 | hx2, hnk⟩
            · exact absurd (hx1 ▸ hk) hnk
            · exact ⟨hx2, hnk⟩
      · have hstep : checkStep st n =
            { current := insert (notifId n) st.current,
              known := insert (notifId n) st.known,
              surfaced := st.surfaced ++ [notifId n] } := by
          unfold checkStep
          rw [if_neg h0, if_neg hk]
        rw [hstep]
        obtain ⟨hc, hkn, l, hs, hnd, hts⟩ := ih
          { current := insert (notifId n) st.current,
            known := insert (notifId n) st.known,
            surfaced := st.surfaced ++ [notifId n] }
        rw [idSet_cons, if_neg h0]
        refine ⟨?_, ?_, notifId n :: l, ?_, ?_, ?_⟩
        · rw [hc]; ext x; simp; try tauto
        · rw [hkn]; ext x; simp; try tauto
        · rw [hs]; simp
        · refine List.nodup_cons.2 ⟨?_, hnd⟩
          intro hmem
          have := hts ▸ List.mem_toFinset.2 hmem
          simp at this
        · rw [List.toFinset_cons, hts]
          ext x
          simp only [Finset.mem_insert, Finset.mem_sdiff]
          constructor
          · rintro (hx | ⟨hx2, hnk⟩)
            · exact ⟨Or.inl hx, hx ▸ hk⟩
            · exact ⟨Or.inr hx2, fun hmem => hnk (Or.inr hmem)⟩
          · rintro ⟨hx1 | hx2, hnk⟩
            · exact Or.inl hx1
            · by_cases hxe : x = notifId n
              · exact Or.inl hxe
              · exact Or.inr ⟨hx2, fun hmem => by
                  rcases hmem with h | h
                  · exact hxe h
                  · exact hnk h⟩

theorem checkNotifications_spec (known : Finset String) (ns : List Notification) :
    (checkNotifications known ns).2 = idSet ns ∧
    (checkNotifications known ns).1.Nodup ∧
    (checkNotifications known ns).1.toFinset = idSet ns \ known := by
  obtain ⟨hc, hk, l, hs, hnd, hts⟩ :=
    foldl_checkStep ns ⟨∅, known, []⟩
  unfold checkNotifications
  simp only [hc, hk, hs]
  refine ⟨?_, by simpa using hnd, by simpa using hts⟩
  by_cases hempty : (∅ : Finset String) ∪ idSet ns = ∅
  · rw [if_pos hempty]
    simpa using hempty.symm
  · rw [if_neg hempty]
    ext x
    simp
    try tauto

theorem initializeNotifications_eq_idSet (ns : List Notification) :
    initializeNotifications ns = idSet ns := by
  suffices h : ∀ acc : Finset String,
      ns.foldl initStep acc = acc ∪ idSet ns by
    simpa [initializeNotifications] using h ∅
  induction ns with
  | nil => intro acc; simp [idSet]
  | cons n ns ih =>
    intro acc
    rw [List.foldl_cons, idSet_cons]
    by_cases h0 : notifId n = ""
    · rw [show initStep acc n = acc from by unfold initStep; rw [if_pos h0]]
      rw [ih acc, if_pos h0]
    · rw [show initStep acc n = insert (notifId n) acc from by
        unfold initStep; rw [if_neg h0]]
      rw [ih (insert (notifId n) acc), if_neg h0]
      ext x; simp; try tauto

theorem mem_idSet_stripped {ns : List Notification} {x : String}
    (hx : x ∈ idSet ns) : x ≠ "" ∧ pyStrip x = x := by
  have hx' := hx
  unfold idSet at hx'
  rw [Finset.mem_erase] at hx'
  obtain ⟨hne, hmem⟩ := hx'
  refine ⟨hne, ?_⟩
  rw [List.mem_toFinset, List.mem_map] at hmem
  obtain ⟨n, _, hn⟩ := hmem
  rw [← hn]
  exact pyStrip_idem _

/-! ### Lemmas about the icon cache -/

theorem cachedIcon_mono {cache : IconCache} {k : String} {i : IconRes}
    (key : String) (o : LoaderOutcome) (h : cache k = some i) :
    (cachedIcon cache key o).cache k = some i := by
  unfold cachedIcon
  cases hkey : cache key with
  | some j => exact h
  | none =>
    simp only
    by_cases hk : k = key
    · rw [hk] at h; rw [h] at hkey; cases hkey
    · rw [if_neg hk]; exact h

theorem cachedIcon_hit {cache : IconCache} {key : String} {i : IconRes}
    (o : LoaderOutcome) (h : cache key = some i) :
    (cachedIcon cache key o).fetched = false ∧
    (cachedIcon cache key o).cache = cache := by
  unfold cachedIcon
  rw [h]
  exact ⟨rfl, rfl⟩

theorem cachedIcon_sets (cache : IconCache) (key : String) (o : LoaderOutcome) :
    ((cachedIcon cache key o).cache key).isSome := by
  unfold cachedIcon
  cases hkey : cache key with
  | some j => simp [hkey]
  | none => simp

theorem runCachedCalls_fetchCount (k : String) :
    ∀ (calls : List (String × LoaderOutcome)) (cache : IconCache),
      fetchCount k (runCachedCalls cache calls).2 ≤ 1 ∧
      ((cache k).isSome → fetchCount k (runCachedCalls cache calls).2 = 0) := by
  intro calls
  induction calls with
  | nil => intro cache; constructor <;> simp [runCachedCalls, fetchCount]
  | cons c rest ih =>
    intro cache
    obtain ⟨k₁, o⟩ := c
    have hrun : runCachedCalls cache ((k₁, o) :: rest) =
        ((runCachedCalls (cachedIcon cache k₁ o).cache rest).1,
         (k₁, (cachedIcon cache k₁ o).fetched) ::
           (runCachedCalls (cachedIcon cache k₁ o).cache rest).2) := rfl
    rw [hrun]
    have hcnt : ∀ b tr, fetchCount k ((k₁, b) :: tr) =
        fetchCount k tr + (if (k₁ == k && b) then 1 else 0) := by
      intro b tr
      unfold fetchCount
      rw [List.countP_cons]
    cases hkey : cache k₁ with
    | some i =>
      obtain ⟨hf, hc⟩ := cachedIcon_hit o hkey
      rw [hf, hc] at hrun ⊢
      rw [hcnt]
      simp only [Bool.and_false, if_neg (by simp : ¬ (k₁ == k && false) = true)]
      obtain ⟨ih1, ih2⟩ := ih cache
      exact ⟨by simpa using ih1, fun hs => by simpa using ih2 hs⟩
    | none =>
      by_cases hkk : k₁ = k
      · subst hkk
        have hfetch : (cachedIcon cache k₁ o).fetched = true := by
          unfold cachedIcon
          rw [hkey]
        have hset : ((cachedIcon cache k₁ o).cache k₁).isSome :=
          cachedIcon_sets cache k₁ o
        obtain ⟨_, ih2⟩ := ih (cachedIcon cache k₁ o).cache
        have hrest := ih2 hset
        rw [hfetch, hcnt, hrest]
        constructor
        · simp
        · intro hs
          rw [hkey] at hs
          cases hs
      · have hsame : (cachedIcon cache k₁ o).cache k = cache k := by
          unfold cachedIcon
          cases hkey2 : cache k₁ with
          | some j => rfl
          | none =>
            simp only
            rw [if_neg (fun h => hkk h.symm)]
        rw [hcnt]
        have hne : ¬ (k₁ == k && (cachedIcon cache k₁ o).fetched) = true := by
          simp [hkk]
        rw [if_neg hne]
        obtain ⟨ih1, ih2⟩ := ih (cachedIcon cache k₁ o).cache
        constructor
        · simpa using ih1
        · intro hs
          rw [← hsame] at hs
          simpa using ih2 hs

theorem apiCacheKey_ne_resourceKey (g n s : String) :
    apiCacheKey g n ≠ "resource:" ++ s := by
  intro h
  have hd := congrArg String.data h
  unfold apiCacheKey at hd
  simp only [String.data_append] at hd
  have hh := congrArg List.head? hd
  simp only [List.cons_append, List.head?_cons] at hh
  exact absurd hh (by decide)

theorem cachedIcon_result_of_miss {cache : IconCache} {key : String}
    (o : LoaderOutcome) (h : cache key = none) :
    (cachedIcon cache key o).result = decodeOutcome o := by
  unfold cachedIcon decodeOutcome
  rw [h]
  cases o with
  | err => rfl
  | ok i => cases i <;> rfl

theorem entityIconFromApi_mono {cache : IconCache} {k : String} {i : IconRes}
    (b : String) (st : String → Option EntityAttrs) (o : FetchOracles)
    (e : String) (h : cache k = some i) :
    (entityIconFromApi b st o cache e).2 k = some i := by
  unfold entityIconFromApi
  cases st e with
  | none => exact h
  | some attrs =>
    simp only
    by_cases hpic : pyStrip (attrs.entity_picture.getD "") ≠ ""
    · rw [if_pos hpic]
      exact cachedIcon_mono _ _ h
    · rw [if_neg hpic]
      by_cases hicn : pyStrip (attrs.icon.getD "") ≠ ""
      · rw [if_pos hicn]
        exact cachedIcon_mono _ _ h
      · rw [if_neg hicn]
        exact h

theorem entityIconFromResources_mono {cache : IconCache} {k : String}
    {i : IconRes} (o : FetchOracles) (e : String) (h : cache k = some i) :
    (entityIconFromResources o cache e).2 k = some i := by
  unfold entityIconFromResources
  cases hkey : cache (resourceKey e) with
  | some j => exact h
  | none =>
    simp only
    by_cases hk : k = resourceKey e
    · rw [hk] at h; rw [h] at hkey; cases hkey
    · rw [if_neg hk]; exact h

theorem entityIcon_true_eq (b : String) (st : String → Option EntityAttrs)
    (o : FetchOracles) (cache : IconCache) (e : String) :
    entityIcon true b st o cache e =
      match (entityIconFromApi b st o cache e).1 with
      | some i => (some i, (entityIconFromApi b st o cache e).2)
      | none => entityIconFromResources o (entityIconFromApi b st o cache e).2 e := rfl

theorem entityIcon_false_eq (b : String) (st : String → Option EntityAttrs)
    (o : FetchOracles) (cache : IconCache) (e : String) :
    entityIcon false b st o cache e = entityIconFromResources o cache e := rfl

theorem entityIcon_mono {cache : IconCache} {k : String} {i : IconRes}
    (client : Bool) (b : String) (st : String → Option EntityAttrs)
    (o : FetchOracles) (e : String) (h : cache k = some i) :
    (entityIcon client b st o cache e).2 k = some i := by
  cases client with
  | false =>
    rw [entityIcon_false_eq]
    exact entityIconFromResources_mono o e h
  | true =>
    rw [entityIcon_true_eq]
    cases hr : (entityIconFromApi b st o cache e).1 with
    | some j =>
      simp only [hr]
      exact entityIconFromApi_mono b st o e h
    | none =>
      simp only [hr]
      exact entityIconFromResources_mono o e (entityIconFromApi_mono b st o e h)

theorem buildPanel_mono {k : String} {i : IconRes}
    (client : Bool) (b : String) (st : String → Option EntityAttrs)
    (o : FetchOracles) :
    ∀ (l : List (String × String)) (cache : IconCache), cache k = some i →
      (buildPanel client b st o cache l).1 k = some i := by
  intro l
  induction l with
  | nil => intro cache h; exact h
  | cons p rest ih =>
    intro cache h
    obtain ⟨eid, fname⟩ := p
    exact ih _ (entityIcon_mono client b st o eid h)

theorem buildFallback_mono {k : String} {i : IconRes}
    (client : Bool) (b : String) (st : String → Option EntityAttrs)
    (o : FetchOracles) (em : List (String × String)) :
    ∀ (l : List String) (cache : IconCache), cache k = some i →
      (buildFallback client b st o em cache l).1 k = some i := by
  intro l
  induction l with
  | nil => intro cache h; exact h
  | cons e rest ih =>
    intro cache h
    exact ih _ (entityIcon_mono client b st o e h)

theorem menuIconPass_mono {k : String} {i : IconRes}
    (client : Bool) (b : String) (st : String → Option EntityAttrs)
    (o : FetchOracles) (pr : List String) :
    ∀ (l : List String) (cache : IconCache), cache k = some i →
      menuIconPass client b st o pr cache l k = some i := by
  intro l
  induction l with
  | nil => intro cache h; exact h
  | cons e rest ih =>
    intro cache h
    unfold menuIconPass
    by_cases hmem : e ∈ pr
    · rw [if_pos hmem]; exact ih _ h
    · rw [if_neg hmem]
      exact ih _ (entityIcon_mono client b st o e h)

theorem resourceKey_shape (e : String) :
    ∃ s, resourceKey e = "resource:" ++ s := by
  unfold resourceKey
  by_cases hdom : domainOf e ≠ ""
  · exact ⟨domainOf e, by rw [if_pos hdom]⟩
  · exact ⟨e, by rw [if_neg hdom]⟩

theorem entityIconFromApi_of_none {st : String → Option EntityAttrs}
    {e : String} (hse : st e = none) (b : String) (o : FetchOracles)
    (cache : IconCache) :
    entityIconFromApi b st o cache e = (none, cache) := by
  unfold entityIconFromApi
  rw [hse]

theorem entityIconFromApi_of_some {st : String → Option EntityAttrs}
    {e : String} {attrs : EntityAttrs} (hse : st e = some attrs) (b : String)
    (o : FetchOracles) (cache : IconCache) :
    entityIconFromApi b st o cache e =
      (if pyStrip (attrs.entity_picture.getD "") ≠ "" then
        let r := cachedIcon cache
          (apiCacheKey b (pyStrip (attrs.entity_picture.getD "")))
          (o.pictureOutcome (pyStrip (attrs.entity_picture.getD "")))
        (r.result, r.cache)
      else if pyStrip (attrs.icon.getD "") ≠ "" then
        let r := cachedIcon cache
          (apiCacheKey b (pyStrip (attrs.icon.getD "")))
          (o.iconOutcome (pyStrip (attrs.icon.getD "")))
        (r.result, r.cache)
      else (none, cache)) := by
  unfold entityIconFromApi
  rw [hse]

theorem entityIconFromResources_of_unset {cache : IconCache}
    (o : FetchOracles) (e : String)
    (h : ∀ s, cache ("resource:" ++ s) = none) :
    (entityIconFromResources o cache e).1 = specFallbackIcon o e := by
  obtain ⟨s, hs⟩ := resourceKey_shape e
  have hnone : cache (resourceKey e) = none := by rw [hs]; exact h s
  unfold entityIconFromResources specFallbackIcon domain_icon_name
  rw [hnone]

theorem cachedIcon_fresh_resource_unset (b n : String) (o : LoaderOutcome)
    (s : String) :
    (cachedIcon (fun _ => none) (apiCacheKey b n) o).cache ("resource:" ++ s)
      = none := by
  unfold cachedIcon
  simp only
  rw [if_neg (fun h => apiCacheKey_ne_resourceKey b n s h.symm)]

theorem entityIcon_empty_cache_spec (b : String)
    (st : String → Option EntityAttrs) (o : FetchOracles) (e : String) :
    (entityIcon true b st o (fun _ => none) e).1 = specEntityIcon st o e := by
  rw [entityIcon_true_eq]
  have hempty : ∀ s, (fun _ => none : IconCache) ("resource:" ++ s) = none :=
    fun _ => rfl
  cases hse : st e with
  | none =>
    rw [entityIconFromApi_of_none hse]
    simp only
    unfold specEntityIcon
    rw [hse]
    exact entityIconFromResources_of_unset o e hempty
  | some attrs =>
    rw [entityIconFromApi_of_some hse]
    unfold specEntityIcon
    rw [hse]
    simp only
    by_cases hpic : pyStrip (attrs.entity_picture.getD "") ≠ ""
    · rw [if_pos hpic, if_pos hpic]
      have hres := @cachedIcon_result_of_miss (fun _ => none)
        (apiCacheKey b (pyStrip (attrs.entity_picture.getD "")))
        (o.pictureOutcome (pyStrip (attrs.entity_picture.getD ""))) rfl
      rw [hres]
      cases hdec : decodeOutcome
          (o.pictureOutcome (pyStrip (attrs.entity_picture.getD ""))) with
      | some i => simp only [hdec]
      | none =>
        simp only [hdec]
        exact entityIconFromResources_of_unset o e
          (cachedIcon_fresh_resource_unset b _ _)
    · rw [if_neg hpic, if_neg hpic]
      by_cases hicn : pyStrip (attrs.icon.getD "") ≠ ""
      · rw [if_pos hicn, if_pos hicn]
        have hres := @cachedIcon_result_of_miss (fun _ => none)
          (apiCacheKey b (pyStrip (attrs.icon.getD "")))
          (o.iconOutcome (pyStrip (attrs.icon.getD ""))) rfl
        rw [hres]
        cases hdec : decodeOutcome
            (o.iconOutcome (pyStrip (attrs.icon.getD ""))) with
        | some i => simp only [hdec]
        | none =>
          simp only [hdec]
          exact entityIconFromResources_of_unset o e
            (cachedIcon_fresh_resource_unset b _ _)
      · rw [if_neg hicn, if_neg hicn]
        exact entityIconFromResources_of_unset o e hempty

/-! ### Lemmas about metric publishing -/

theorem publishAgentMetricsActual_unfold {cfg : WidgetConfigM}
    {ms : List (String × MetricValue)} {clientOk : Bool}
    {last : String → Option Sig}
    (hagent : cfg.use_agent = true) (hname : pyStrip cfg.agent_name ≠ "")
    (hne : ms ≠ []) (hclient : clientOk = true) :
    publishAgentMetricsActual cfg ms clientOk last =
      ⟨publishLoopActual (pyStrip cfg.agent_name)
        (slugify_agent_name (pyStrip cfg.agent_name)) last ms, last⟩ := by
  have hslug : slugify_agent_name (pyStrip cfg.agent_name) ≠ "" :=
    slugify_of_stripped_ne_empty hname
  unfold publishAgentMetricsActual
  rw [hagent, hclient]
  simp only [not_true, if_false, if_neg hname, if_neg hne, if_neg hslug]

theorem publishAgentMetricsActual_cases (cfg : WidgetConfigM)
    (ms : List (String × MetricValue)) (clientOk : Bool)
    (last : String → Option Sig) :
    publishAgentMetricsActual cfg ms clientOk last = ⟨none, last⟩ ∨
    (cfg.use_agent = true ∧ pyStrip cfg.agent_name ≠ "" ∧ ms ≠ [] ∧
      clientOk = true ∧
      publishAgentMetricsActual cfg ms clientOk last =
        ⟨publishLoopActual (pyStrip cfg.agent_name)
          (slugify_agent_name (pyStrip cfg.agent_name)) last ms, last⟩) := by
  by_cases hagent : cfg.use_agent = true
  · by_cases hname : pyStrip cfg.agent_name = ""
    · left
      unfold publishAgentMetricsActual
      rw [hagent]
      simp only [not_true, if_false, if_pos hname]
    · by_cases hne : ms = []
      · left
        unfold publishAgentMetricsActual
        rw [hagent]
        simp only [not_true, if_false, if_neg hname, if_pos hne]
      · by_cases hclient : clientOk = true
        · exact Or.inr ⟨hagent, hname, hne, hclient,
            publishAgentMetricsActual_unfold hagent hname hne hclient⟩
        · left
          unfold publishAgentMetricsActual
          rw [hagent]
          have hslug : slugify_agent_name (pyStrip cfg.agent_name) ≠ "" :=
            slugify_of_stripped_ne_empty hname
          simp only [not_true, if_false, if_neg hname, if_neg hne,
            if_neg hslug]
          rw [if_pos (by simpa using hclient)]
  · left
    unfold publishAgentMetricsActual
    rw [if_pos (by simpa using hagent)]

theorem publishAgentMetricsActual_last (cfg : WidgetConfigM)
    (ms : List (String × MetricValue)) (clientOk : Bool)
    (last : String → Option Sig) :
    (publishAgentMetricsActual cfg ms clientOk last).last = last := by
  rcases publishAgentMetricsActual_cases cfg ms clientOk last with h |
    ⟨_, _, _, _, h⟩ <;> rw [h]

theorem publishLoopActual_eq_none_iff (agentName slug : String)
    (last : String → Option Sig) :
    ∀ ms : List (String × MetricValue),
      publishLoopActual agentName slug last ms = none ↔
      ∀ km ∈ ms, last (entityIdFor slug km.1) =
        some (payloadSignature agentName km.1 km.2) := by
  intro ms
  induction ms with
  | nil => simp [publishLoopActual]
  | cons km rest ih =>
    unfold publishLoopActual
    by_cases h : last (entityIdFor slug km.1) =
        some (payloadSignature agentName km.1 km.2)
    · rw [if_pos h, ih]
      constructor
      · intro hall km' hm
        rcases List.mem_cons.1 hm with he | hm'
        · rw [he]; exact h
        · exact hall km' hm'
      · intro hall km' hm'
        exact hall km' (List.mem_cons_of_mem _ hm')
    · rw [if_neg h]
      constructor
      · intro hc
        exact Option.noConfusion hc
      · intro hall
        exact absurd (hall km (List.mem_cons_self km rest)) h

theorem publishActual_escape_of_mismatch {cfg : WidgetConfigM}
    {ms : List (String × MetricValue)} {clientOk : Bool}
    {last : String → Option Sig} {k : String} {m : MetricValue}
    (hmem : (k, m) ∈ ms)
    (hagent : cfg.use_agent = true) (hname : pyStrip cfg.agent_name ≠ "")
    (hclient : clientOk = true)
    (hdiff : last (destinationId cfg k) ≠ some (metricSignature cfg k m)) :
    ((publishAgentMetricsActual cfg ms clientOk last).uncaughtError).isSome
      = true := by
  unfold destinationId metricSignature at hdiff
  rw [publishAgentMetricsActual_unfold hagent hname
    (List.ne_nil_of_mem hmem) hclient]
  show (publishLoopActual (pyStrip cfg.agent_name)
      (slugify_agent_name (pyStrip cfg.agent_name)) last ms).isSome = true
  cases hl : publishLoopActual (pyStrip cfg.agent_name)
      (slugify_agent_name (pyStrip cfg.agent_name)) last ms with
  | some d => rfl
  | none =>
    exfalso
    exact hdiff
      ((publishLoopActual_eq_none_iff _ _ last ms).1 hl (k, m) hmem)

theorem publishActual_complete_of_all_match {cfg : WidgetConfigM}
    {ms : List (String × MetricValue)} {clientOk : Bool}
    {last : String → Option Sig}
    (hall : ∀ km ∈ ms, last (destinationId cfg km.1) =
      some (metricSignature cfg km.1 km.2)) :
    (publishAgentMetricsActual cfg ms clientOk last).uncaughtError = none := by
  rcases publishAgentMetricsActual_cases cfg ms clientOk last with h |
    ⟨_, _, _, _, h⟩
  · rw [h]
  · rw [h]
    show publishLoopActual (pyStrip cfg.agent_name)
      (slugify_agent_name (pyStrip cfg.agent_name)) last ms = none
    rw [publishLoopActual_eq_none_iff]
    intro km hm
    have hkm := hall km hm
    unfold destinationId metricSignature at hkm
    exact hkm

/-! ### Lemmas about the entity refresh -/

theorem buildFallback_labels (client : Bool) (b : String)
    (st : String → Option EntityAttrs) (o : FetchOracles) :
    ∀ (es : List String) (cache : IconCache),
      ((buildFallback client b st o [] cache es).2).map
          (fun p => (p.entity_id, p.friendly_name)) =
        es.map (fun e => (e, e)) := by
  intro es
  induction es with
  | nil => intro cache; rfl
  | cons e rest ih =>
    intro cache
    unfold buildFallback
    simp only [List.map_cons]
    rw [ih]
    rfl

theorem updateEntities_eq_of_fetch_none (cfg : WidgetConfigM)
    (o : FetchOracles) (cache₀ : IconCache) :
    updateEntities cfg o none cache₀ =
      finishUpdate false cfg (fun _ => none) o [] cache₀ [] [] := by
  unfold updateEntities
  by_cases hc : cfg.base_url ≠ "" ∧ cfg.api_token ≠ ""
  · rw [if_pos hc]
  · rw [if_neg hc]

theorem updateEntities_fetch_failure (cfg : WidgetConfigM)
    (o : FetchOracles) (cache₀ : IconCache) :
    (updateEntities cfg o none cache₀).1 = [] ∧
    (∀ k v, cache₀ k = some v →
      (updateEntities cfg o none cache₀).2.1 k = some v) ∧
    ((updateEntities cfg o none cache₀).2.2).map
        (fun p => (p.entity_id, p.friendly_name)) =
      cfg.entities.map (fun e => (e, e)) := by
  rw [updateEntities_eq_of_fetch_none]
  unfold finishUpdate
  by_cases hent : cfg.entities = []
  · have hcond : ¬ (True ∧ cfg.entities ≠ []) := by simp [hent]
    have hcond2 : ¬ cfg.entities ≠ [] := by simpa using hent
    simp only [if_neg hcond, if_neg hcond2]
    refine ⟨by trivial, fun k v h => h, ?_⟩
    rw [hent]
    rfl
  · have hcond : (True ∧ cfg.entities ≠ []) := ⟨trivial, hent⟩
    simp only [if_pos hcond, if_pos hent]
    refine ⟨by trivial, ?_, ?_⟩
    · intro k v h
      exact menuIconPass_mono false cfg.base_url (fun _ => none) o cfg.entities
        cfg.entities _
        (buildFallback_mono false cfg.base_url (fun _ => none) o [] cfg.entities
          cache₀ h)
    · simpa using buildFallback_labels false cfg.base_url (fun _ => none) o
        cfg.entities cache₀

/-! ### Claim theorems -/

/-- C1: for every prior Known-Notifications Set `K` and every successful
notification poll whose result carries the identifier set `N = idSet ns`,
the poll surfaces an alert for exactly the identifiers in `N \ K`, each
exactly once (the surfaced list has no duplicates and its underlying set is
`N \ K`), and after the poll the Known-Notifications Set equals exactly `N`
(so an empty `N` empties the set and a disappeared-then-reappeared id is
surfaced as new again). -/
theorem claim_C1_poll_diff_and_prune (K : Finset String)
    (ns : List Notification) :
    (checkNotifications K ns).2 = idSet ns ∧
    (checkNotifications K ns).1.Nodup ∧
    (checkNotifications K ns).1.toFinset = idSet ns \ K :=
  checkNotifications_spec K ns

/-- C5: across any sequence of `_cached_icon` invocations (any keys, any
loader outcomes — success, decode failure, or a raised gateway error), at
most one invocation for a given `(gateway base address, resource name)`
cache key actually runs its loader, and none does when the key is already
cached (positive or negative): a hit short-circuits the fetch. -/
theorem claim_C5_single_fetch_per_key (cache : IconCache)
    (calls : List (String × LoaderOutcome)) (g r : String) :
    fetchCount (apiCacheKey g r) (runCachedCalls cache calls).2 ≤ 1 ∧
    (∀ i, cache (apiCacheKey g r) = some i →
      fetchCount (apiCacheKey g r) (runCachedCalls cache calls).2 = 0) := by
  obtain ⟨h1, h2⟩ := runCachedCalls_fetchCount (apiCacheKey g r) calls cache
  exact ⟨h1, fun i hi => h2 (by rw [hi]; rfl)⟩

/-- C5 witness: with the key already (positively) cached, a further call
issues no fetch. -/
theorem claim_C5_witness :
    fetchCount (apiCacheKey "g" "r")
      (runCachedCalls
        (fun k => if k = apiCacheKey "g" "r" then some (IconRes.real 0) else none)
        [(apiCacheKey "g" "r", LoaderOutcome.err)]).2 = 0 :=
  (claim_C5_single_fetch_per_key _ _ "g" "r").2 (IconRes.real 0) (by decide)

/-- C6: starting from an empty cache, `_entity_icon` resolves in exactly the
order the specification states: (1) remote picture when present, (2) else
symbolic icon name when present, (3) else — or when (1)/(2) raises or
decodes to nothing — the local fallback that maps the domain (the substring
before the first `.`) through the static table; a domain absent from the
table maps to the generic default resource. -/
theorem claim_C6_resolution_order (b : String)
    (st : String → Option EntityAttrs) (o : FetchOracles) (e : String) :
    (entityIcon true b st o (fun _ => none) e).1 = specEntityIcon st o e ∧
    (DOMAIN_ICON_FILES.lookup (domainOf e) = none →
      domain_icon_name e = DEFAULT_ENTITY_ICON) := by
  refine ⟨entityIcon_empty_cache_spec b st o e, fun h => ?_⟩
  unfold domain_icon_name
  rw [h]
  rfl

/-- C6 witness: an entity of an unknown domain falls back to the generic
default resource. -/
theorem claim_C6_witness :
    domain_icon_name "foo.bar" = DEFAULT_ENTITY_ICON :=
  (claim_C6_resolution_order "b" (fun _ => none) wOracles "foo.bar").2 (by decide)

/-- C8 counterexample: the all-whitespace label `"   "` yields the empty
string, not the fixed default token `"agent"` the claim (and the
spec-worded derivation) require. -/
theorem claim_C8_counterexample :
    slugify_agent_name "   " = "" ∧ ("" : String) ≠ "agent" ∧
    slugifySpec "   " = "agent" := by
  decide

/-- C8 amended: for every label with at least one non-whitespace character
the slug is exactly the spec-worded derivation (lower-cased, non-alphanumeric
runs collapsed to single underscores, underscores trimmed, empty result
falling back to the fixed token `"agent"`); a label that strips to empty
yields the empty string instead of the default token.  In particular
`"Living Room PC!!"` yields `"living_room_pc"`. -/
theorem claim_C8_amended :
    (∀ name, pyStrip name ≠ "" → slugify_agent_name name = slugifySpec name) ∧
    (∀ name, pyStrip name = "" → slugify_agent_name name = "") ∧
    slugify_agent_name "Living Room PC!!" = "living_room_pc" ∧
    slugifySpec "Living Room PC!!" = "living_room_pc" := by
  refine ⟨?_, ?_, by decide, by decide⟩
  · intro name h
    have hdata : ¬ (lowerStr (pyStrip name)).data = [] := by
      intro hnil
      rw [lowerStr_data_eq_nil_iff] at hnil
      exact h ((string_eq_empty_iff _).2 hnil)
    unfold slugify_agent_name slugifySpec
    rw [if_neg hdata]
  · intro name h
    have hdata : (lowerStr (pyStrip name)).data = [] := by
      rw [lowerStr_data_eq_nil_iff]
      exact (string_eq_empty_iff _).1 h
    unfold slugify_agent_name
    rw [if_pos hdata]

/-- C8 witness: the amended derivation evaluated on the spec's concrete
scenario label. -/
theorem claim_C8_witness :
    slugify_agent_name "Living Room PC!!" = slugifySpec "Living Room PC!!" :=
  claim_C8_amended.1 "Living Room PC!!" (by decide)

/-- C9 counterexample: a configured value of 2000 minutes is applied
unchanged — the code clamps only from below, so the claimed upper clamp to
1440 does not exist. -/
theorem claim_C9_counterexample :
    applyPanelRefreshMinutes (some 2000) = 2000 ∧
    ¬ applyPanelRefreshMinutes (some 2000) ≤ 1440 := by
  decide

/-- C9 amended: the interval applied to the entity-refresh timer is a
positive number of minutes, an unset value defaults to 5, and every
configured value of at least 1 is used unchanged (clamping happens only
from below, to 1; there is no upper clamp). -/
theorem claim_C9_amended :
    (∀ v, 1 ≤ applyPanelRefreshMinutes v) ∧
    applyPanelRefreshMinutes none = 5 ∧
    (∀ n : Int, 1 ≤ n → applyPanelRefreshMinutes (some n) = n) := by
  refine ⟨?_, by decide, ?_⟩
  · intro v
    unfold applyPanelRefreshMinutes
    exact le_max_left 1 _
  · intro n hn
    show (1 : Int) ⊔ (if n = 0 then 5 else n) = n
    rw [if_neg (by omega : ¬ n = 0)]
    exact max_eq_right hn

/-- C9 witness: a configured value of 7 minutes is applied as 7. -/
theorem claim_C9_witness : applyPanelRefreshMinutes (some 7) = 7 :=
  claim_C9_amended.2.2 7 (by decide)

/-- C10: a notification whose identifier is missing, empty, or
whitespace-only is ignored by both the seeding pass and the diffed poll
(the processing step leaves the state unchanged), and consequently every
identifier in the seeded set, in the surfaced list, and in the
Known-Notifications Set after a poll is non-empty and stripped. -/
theorem claim_C10_blank_ids_ignored (K : Finset String)
    (ns : List Notification) :
    (∀ (st : CheckState) (n : Notification), notifId n = "" →
      checkStep st n = st) ∧
    (∀ (acc : Finset String) (n : Notification), notifId n = "" →
      initStep acc n = acc) ∧
    (∀ x ∈ initializeNotifications ns, x ≠ "" ∧ pyStrip x = x) ∧
    (∀ x ∈ (checkNotifications K ns).1, x ≠ "" ∧ pyStrip x = x) ∧
    (∀ x ∈ (checkNotifications K ns).2, x ≠ "" ∧ pyStrip x = x) := by
  obtain ⟨hknown, _, hsurf⟩ := checkNotifications_spec K ns
  refine ⟨?_, ?_, ?_, ?_, ?_⟩
  · intro st n h
    unfold checkStep
    rw [if_pos h]
  · intro acc n h
    unfold initStep
    rw [if_pos h]
  · intro x hx
    rw [initializeNotifications_eq_idSet] at hx
    exact mem_idSet_stripped hx
  · intro x hx
    have hx' : x ∈ idSet ns \ K := hsurf ▸ List.mem_toFinset.2 hx
    exact mem_idSet_stripped (Finset.mem_sdiff.1 hx').1
  · intro x hx
    rw [hknown] at hx
    exact mem_idSet_stripped hx

/-- C10 witness: a whitespace-only id leaves the poll state unchanged, and a
seeded id is stripped and non-empty. -/
theorem claim_C10_witness :
    checkStep ⟨∅, ∅, []⟩ ⟨some "  ", none, none⟩ = ⟨∅, ∅, []⟩ ∧
    ("a" ≠ "" ∧ pyStrip "a" = "a") :=
  ⟨(claim_C10_blank_ids_ignored ∅ []).1 ⟨∅, ∅, []⟩ ⟨some "  ", none, none⟩
      (by decide),
   (claim_C10_blank_ids_ignored ∅ [⟨some " a ", none, none⟩]).2.2.1 "a"
      (by decide)⟩

/-- C2 (code bug): the skip half of the dedup is real — a run in which every
collected metric's freshly computed signature equals the stored one issues
no gateway call and completes — but no push can ever be issued:
`HomeAssistantClient` defines no `set_state`, so the first metric whose
signature differs raises an uncaught `AttributeError`, the
Last-Published-Value Map is never updated, and "exactly one push across two
consecutive runs" is unrealizable; at the concrete failing input the run
dies at the disk-metric destination. -/
theorem claim_C2_push_unrealizable (cfg : WidgetConfigM)
    (ms : List (String × MetricValue)) (clientOk : Bool)
    (last : String → Option Sig) :
    "set_state" ∉ haClientMethods ∧
    (publishAgentMetricsActual cfg ms clientOk last).last = last ∧
    ((∀ km ∈ ms, last (destinationId cfg km.1) =
        some (metricSignature cfg km.1 km.2)) →
      (publishAgentMetricsActual cfg ms clientOk last).uncaughtError = none) ∧
    (publishAgentMetricsActual wConfig wMetrics true
        (fun _ => none)).uncaughtError =
      some (destinationId wConfig "disk_free_gb") := by
  refine ⟨by decide, publishAgentMetricsActual_last cfg ms clientOk last,
    fun hall => publishActual_complete_of_all_match hall, by decide⟩

/-- C2 witness: a run whose stored signatures all match completes without
any gateway call. -/
theorem claim_C2_witness :
    (publishAgentMetricsActual wConfig wMetrics true
        (fun d => if d = destinationId wConfig "disk_free_gb" then
          some (metricSignature wConfig "disk_free_gb" ⟨"5", []⟩)
        else none)).uncaughtError = none :=
  (claim_C2_push_unrealizable wConfig wMetrics true _).2.2.1 (by decide)

/-- C3 (code bug): the only failure the push site can produce is an
`AttributeError` — `set_state` is not a method of `HomeAssistantClient` —
and `except HomeAssistantError` does not catch it: on every enabled run
with a metric whose signature is not already stored, the error escapes the
run instead of being contained at the job boundary.  The map is left
unchanged only because the run can never write it. -/
theorem claim_C3_push_failure_uncaught (cfg : WidgetConfigM)
    (ms : List (String × MetricValue)) (clientOk : Bool)
    (last : String → Option Sig) (k : String) (m : MetricValue)
    (hmem : (k, m) ∈ ms)
    (hagent : cfg.use_agent = true) (hname : pyStrip cfg.agent_name ≠ "")
    (hclient : clientOk = true)
    (hdiff : last (destinationId cfg k) ≠ some (metricSignature cfg k m)) :
    "set_state" ∉ haClientMethods ∧
    ((publishAgentMetricsActual cfg ms clientOk last).uncaughtError).isSome
      = true ∧
    (publishAgentMetricsActual cfg ms clientOk last).last = last :=
  ⟨by decide, publishActual_escape_of_mismatch hmem hagent hname hclient hdiff,
   publishAgentMetricsActual_last cfg ms clientOk last⟩

/-- C3 witness: on the concrete failing input (agent enabled, one collected
metric, empty map) the error escapes the run. -/
theorem claim_C3_witness :
    ((publishAgentMetricsActual wConfig wMetrics true
        (fun _ => none)).uncaughtError).isSome = true :=
  (claim_C3_push_failure_uncaught wConfig wMetrics true (fun _ => none)
      "disk_free_gb" ⟨"5", []⟩ (by decide) rfl (by decide) rfl
      (by decide)).2.1

/-- C4 counterexample: after a successful refresh published
`[("light.a", "Lamp", …)]`, a refresh whose fetch fails publishes a
different fallback view (the label degrades to the raw entity id) and
empties the entity-state map — contradicting "the previously published view
is left unchanged and no engine cache is cleared". -/
theorem claim_C4_counterexample :
    (updateEntities wConfig wOracles none
        (updateEntities wConfig wOracles
          (some [⟨some "light.a", some ⟨some "Lamp", none, none⟩⟩])
          (fun _ => none)).2.1).2.2 ≠
      (updateEntities wConfig wOracles
        (some [⟨some "light.a", some ⟨some "Lamp", none, none⟩⟩])
        (fun _ => none)).2.2 ∧
    (updateEntities wConfig wOracles none
        (updateEntities wConfig wOracles
          (some [⟨some "light.a", some ⟨some "Lamp", none, none⟩⟩])
          (fun _ => none)).2.1).1 = [] ∧
    (updateEntities wConfig wOracles
        (some [⟨some "light.a", some ⟨some "Lamp", none, none⟩⟩])
        (fun _ => none)).1 ≠ [] := by
  decide

/-- C4 amended: a failed entity-state fetch does not leave the previously
published view in place — the run clears the entity-state map and publishes
a fallback view with one entry per configured entity id, labelled by the raw
id — but it clears no icon cache: every existing icon-cache entry is
preserved. -/
theorem claim_C4_failure_publishes_fallback (cfg : WidgetConfigM)
    (o : FetchOracles) (cache₀ : IconCache) :
    (updateEntities cfg o none cache₀).1 = [] ∧
    (∀ k v, cache₀ k = some v →
      (updateEntities cfg o none cache₀).2.1 k = some v) ∧
    ((updateEntities cfg o none cache₀).2.2).map
        (fun p => (p.entity_id, p.friendly_name)) =
      cfg.entities.map (fun e => (e, e)) :=
  updateEntities_fetch_failure cfg o cache₀

/-- C4 witness: an icon-cache entry present before the failing refresh is
still present afterwards. -/
theorem claim_C4_witness :
    (updateEntities wConfig wOracles none
        (fun k => if k = "resource:light" then some (IconRes.real 7)
          else none)).2.1 "resource:light" = some (IconRes.real 7) :=
  (claim_C4_failure_publishes_fallback wConfig wOracles
      (fun k => if k = "resource:light" then some (IconRes.real 7) else none)).2.1
    "resource:light" (IconRes.real 7) (by decide)

/-- C7 (code bug): a configuration change does clear the icon cache and the
Last-Published-Value Map entirely and does trigger exactly one immediate
out-of-band run of each enabled job (entity refresh always, notification
poll iff enabled, metric publish when the agent is enabled with a non-blank
label) — but the claimed consequence cannot happen: the triggered publish
run, finding the cleared map, attempts `client.set_state`, raises an
uncaught `AttributeError`, and republishes nothing (the map stays
cleared). -/
theorem claim_C7_retrigger_cannot_republish (cfg : WidgetConfigM)
    (notifFetch : Option (List Notification))
    (ms : List (String × MetricValue)) (k : String) (m : MetricValue)
    (hmem : (k, m) ∈ ms)
    (hagent : cfg.use_agent = true) (hname : pyStrip cfg.agent_name ≠ "") :
    (∀ d, (onConfigurationChanged cfg notifFetch).1.iconCache d = none) ∧
    (∀ d, (onConfigurationChanged cfg notifFetch).1.agentLastPayloads d = none) ∧
    (onConfigurationChanged cfg notifFetch).2.count JobRun.entityRefresh = 1 ∧
    (onConfigurationChanged cfg notifFetch).2.count JobRun.notificationCheck =
      (if cfg.receive_admin_notifications then 1 else 0) ∧
    (onConfigurationChanged cfg notifFetch).2.count JobRun.agentPublish = 1 ∧
    ((publishAgentMetricsActual cfg ms true
        (onConfigurationChanged cfg notifFetch).1.agentLastPayloads).uncaughtError).isSome
      = true ∧
    (publishAgentMetricsActual cfg ms true
        (onConfigurationChanged cfg notifFetch).1.agentLastPayloads).last =
      (onConfigurationChanged cfg notifFetch).1.agentLastPayloads := by
  have hlp : (onConfigurationChanged cfg notifFetch).1.agentLastPayloads =
      (fun _ => (none : Option Sig)) := rfl
  have hcond : (cfg.use_agent && (pyStrip cfg.agent_name != "")) = true := by
    rw [hagent, Bool.true_and]
    exact bne_iff_ne.mpr hname
  have hjobs : (onConfigurationChanged cfg notifFetch).2 =
      [JobRun.entityRefresh] ++
        (if cfg.receive_admin_notifications then [JobRun.notificationCheck]
          else []) ++ [JobRun.agentPublish] := by
    have hbase : (onConfigurationChanged cfg notifFetch).2 =
        [JobRun.entityRefresh] ++
          (if cfg.receive_admin_notifications then [JobRun.notificationCheck]
            else []) ++
          (if cfg.use_agent && (pyStrip cfg.agent_name != "") then
            [JobRun.agentPublish] else []) := rfl
    rw [hbase, hcond, if_pos rfl]
  have hdiff : (fun _ => (none : Option Sig)) (destinationId cfg k) ≠
      some (metricSignature cfg k m) := fun h => Option.noConfusion h
  refine ⟨fun d => rfl, fun d => rfl, ?_, ?_, ?_, ?_, ?_⟩
  · rw [hjobs]
    by_cases hrecv : cfg.receive_admin_notifications = true
    · simp only [if_pos hrecv]
      decide
    · simp only [if_neg hrecv]
      decide
  · rw [hjobs]
    by_cases hrecv : cfg.receive_admin_notifications = true
    · simp only [if_pos hrecv]
      decide
    · simp only [if_neg hrecv]
      decide
  · rw [hjobs]
    by_cases hrecv : cfg.receive_admin_notifications = true
    · simp only [if_pos hrecv]
      decide
    · simp only [if_neg hrecv]
      decide
  · rw [hlp]
    exact publishActual_escape_of_mismatch hmem hagent hname rfl hdiff
  · exact publishAgentMetricsActual_last cfg ms true _

/-- C7 witness: after a concrete configuration change the map is cleared
and the immediately triggered publish run crashes instead of
republishing. -/
theorem claim_C7_witness :
    (onConfigurationChanged wConfig none).1.agentLastPayloads
        (destinationId wConfig "disk_free_gb") = none ∧
    ((publishAgentMetricsActual wConfig wMetrics true
        (onConfigurationChanged wConfig none).1.agentLastPayloads).uncaughtError).isSome
      = true :=
  ⟨(claim_C7_retrigger_cannot_republish wConfig none wMetrics "disk_free_gb"
      ⟨"5", []⟩ (by decide) rfl (by decide)).2.1
      (destinationId wConfig "disk_free_gb"),
   (claim_C7_retrigger_cannot_republish wConfig none wMetrics "disk_free_gb"
      ⟨"5", []⟩ (by decide) rfl (by decide)).2.2.2.2.2.1⟩

end HassWidget
